import Mathlib

/-!
Verification development for the cursor-opencode-auth repository.

The definitions below are a shallow embedding of the TypeScript sources:

* `packages/opencode-plugin-cursor/src/lib/process.ts` (process primitive `run`),
* `packages/cursor-openai-bridge/src/lib/openai.ts` (`normalizeModelId`,
  `messageContentToText`, `buildPromptFromMessages`),
* `packages/cursor-openai-bridge/src/lib/config.ts` / `cursorCli.ts`
  (`parseCursorCliModels`),
* `packages/cursor-openai-bridge/src/lib/http.ts` (`extractBearerToken`),
* `packages/cursor-openai-bridge/src/lib/server.ts` (`startBridgeServer`
  request handler, model cache, model pinning),
* `packages/opencode-plugin-cursor/src/index.ts` (`cursor_cli_patch` tool).

JavaScript strings are modelled through `List Char`; `jsTrim`, `splitOnChar`
and friends reproduce the observable behaviour of `String.prototype.trim`,
`String.prototype.split` with a one-character separator, and the concrete
regular expressions appearing in the sources (ASCII inputs; the class of
whitespace characters is `Char.isWhitespace`).
-/

namespace Bridge

/-- Whitespace test used to model the JS `\s` class and `trim`. -/
def jsWs (c : Char) : Bool := c.isWhitespace

/-- JS `String.prototype.trim`: strip leading and trailing whitespace. -/
def jsTrim (s : String) : String :=
  String.mk (((s.toList.dropWhile jsWs).reverse.dropWhile jsWs).reverse)

/-- JS `String.prototype.trimEnd`: strip trailing whitespace only. -/
def jsTrimEnd (s : String) : String :=
  String.mk ((s.toList.reverse.dropWhile jsWs).reverse)

/-- JS `s.split(sep)` for a one-character separator: the list of chunks
between occurrences of `sep`; never empty. -/
def splitOnChar (sep : Char) : List Char → List (List Char)
  | [] => [[]]
  | c :: rest =>
    let r := splitOnChar sep rest
    if c = sep then [] :: r
    else
      match r with
      | h :: t => (c :: h) :: t
      | [] => [[c]]

/-- JS falsy-string alternative `a || b`. -/
def jsOr (a b : String) : String := if a = "" then b else a

/-! ## Process invocation primitive (process.ts) -/

/-- Outcome of one process invocation (process.ts `RunResult`). -/
structure RunResult where
  code : Int
  stdout : String
  stderr : String
  deriving DecidableEq, Repr

/-- Options accepted by `run` (process.ts `RunOptions`). -/
structure RunOptions where
  cwd : Option String
  timeoutMs : Option Int
  deriving DecidableEq, Repr

/-- The kill timer is armed exactly when `timeoutMs` is a number greater
than zero (process.ts lines 22-28). -/
def timerArmed (opts : RunOptions) : Bool :=
  match opts.timeoutMs with
  | some t => decide (0 < t)
  | none => false

/-- Signal named in the timeout callback (process.ts line 26). -/
def timeoutKillSignal : String := "SIGKILL"

/-- Signal delivered to the child when the armed timer fires while the
child has not yet exited; `none` when no timer was armed. -/
def signalOnTimerFire (opts : RunOptions) : Option String :=
  if timerArmed opts then some timeoutKillSignal else none

/-- How the runtime reports child termination to the `close` handler: a
numeric exit code for a child that exited on its own, and a null code for a
signal-terminated child (Node.js `child_process` semantics, external to
this repository). -/
inductive ChildExit where
  | exited (code : Int)
  | signaled (signal : String)
  deriving DecidableEq, Repr

/-- The `code` argument passed to the `close` handler. -/
def closeCode : ChildExit → Option Int
  | ChildExit.exited c => some c
  | ChildExit.signaled _ => none

/-- The `close` handler resolves with `code ?? 0` together with the
accumulated streams (process.ts lines 57-60). -/
def resolveOnClose (stdout stderr : String) (e : ChildExit) : RunResult :=
  ⟨(closeCode e).getD 0, stdout, stderr⟩

/-! ## Model identifier normalization (openai.ts `normalizeModelId`) -/

/-- openai.ts `normalizeModelId`: trim, take the final `/`-separated
segment, and map empty results to `undefined`. -/
def normalizeModelId (raw : Option String) : Option String :=
  match raw with
  | none => none
  | some s =>
    let trimmed := jsTrim s
    if trimmed = "" then none
    else
      let parts := (splitOnChar '/' trimmed.toList).map String.mk
      match parts.getLast? with
      | some last => if last = "" then none else some last
      | none => none

/-! ## Prompt construction (openai.ts) -/

/-- One element of an array-valued message content: a bare string, an
object tagged `type:"text"` with a string `text` field, or anything else
(null, image parts, malformed objects), which flattens to empty. -/
inductive ContentPart where
  | plain (s : String)
  | text (s : String)
  | other
  deriving DecidableEq, Repr

/-- A chat message `content` value: a plain string, an ordered sequence of
typed parts, or any other shape (flattens to empty). -/
inductive MessageContent where
  | str (s : String)
  | parts (ps : List ContentPart)
  | other
  deriving DecidableEq, Repr

/-- One chat message. A missing role is any string not matching the
recognized role names. -/
structure ChatMessage where
  role : String
  content : MessageContent
  deriving DecidableEq, Repr

/-- Text of a single content part (openai.ts lines 20-25). -/
def partToText : ContentPart → String
  | ContentPart.plain s => s
  | ContentPart.text s => s
  | ContentPart.other => ""

/-- openai.ts `messageContentToText`. -/
def messageContentToText : MessageContent → String
  | MessageContent.str s => s
  | MessageContent.parts ps => String.join (ps.map partToText)
  | MessageContent.other => ""

/-- The two accumulators of openai.ts `buildPromptFromMessages`: system
parts and transcript lines, in message order. -/
def collectParts : List ChatMessage → List String × List String
  | [] => ([], [])
  | m :: rest =>
    let res := collectParts rest
    let text := messageContentToText m.content
    if text = "" then res
    else if m.role = "system" ∨ m.role = "developer" then (text :: res.1, res.2)
    else if m.role = "user" then (res.1, ("User: " ++ text) :: res.2)
    else if m.role = "assistant" then (res.1, ("Assistant: " ++ text) :: res.2)
    else if m.role = "tool" ∨ m.role = "function" then (res.1, ("Tool: " ++ text) :: res.2)
    else res

/-- openai.ts `buildPromptFromMessages` (lines 31-63). -/
def buildPromptFromMessages (msgs : List ChatMessage) : String :=
  let sys := (collectParts msgs).1
  let convo := (collectParts msgs).2
  let system :=
    if sys.isEmpty then ""
    else "System:\n" ++ String.intercalate "\n\n" sys ++ "\n\n"
  system ++ String.intercalate "\n\n" convo ++ "\n\nAssistant:"

/-- System texts as the specification words them: the extracted texts of
the system/developer messages, empty ones skipped. -/
def sysTextsSpec (msgs : List ChatMessage) : List String :=
  msgs.filterMap fun m =>
    let t := messageContentToText m.content
    if t = "" then none
    else if m.role = "system" ∨ m.role = "developer" then some t else none

/-- Role labels of the transcript as the specification words them. -/
def roleLabel (role : String) : Option String :=
  if role = "user" then some "User"
  else if role = "assistant" then some "Assistant"
  else if role = "tool" ∨ role = "function" then some "Tool"
  else none

/-- Transcript lines as the specification words them: each remaining
message with non-empty text rendered as a labelled line. -/
def transcriptLinesSpec (msgs : List ChatMessage) : List String :=
  msgs.filterMap fun m =>
    let t := messageContentToText m.content
    if t = "" then none
    else if m.role = "system" ∨ m.role = "developer" then none
    else (roleLabel m.role).map (fun lbl => lbl ++ ": " ++ t)

/-- Prompt construction as the specification words it: the system block
(prefixed and suffixed only when non-empty), the double-newline-joined
transcript, and the constant completion suffix. -/
def buildPromptSpec (msgs : List ChatMessage) : String :=
  let sys :=
    if sysTextsSpec msgs = [] then ""
    else "System:\n" ++ String.intercalate "\n\n" (sysTextsSpec msgs) ++ "\n\n"
  sys ++ String.intercalate "\n\n" (transcriptLinesSpec msgs) ++ "\n\nAssistant:"

/-! ## Model-listing output parsing (cursorCli.ts `parseCursorCliModels`) -/

/-- One parsed model descriptor (cursorCli.ts `CursorCliModel`). -/
structure CursorCliModel where
  id : String
  name : String
  deriving DecidableEq, Repr

/-- Character class of the identifier in the listing regex: alphanumerics
plus dot, underscore, colon, slash and hyphen. -/
def isModelIdChar (c : Char) : Bool :=
  c.isAlphanum || c = '.' || c = '_' || c = ':' || c = '/' || c = '-'

/-- Matching of one (already trimmed) listing line against the listing
regex of cursorCli.ts line 103: an identifier (first character
alphanumeric, then identifier characters), a nonempty whitespace run, a
hyphen, a nonempty whitespace run, and the description as the rest.
The identifier group is the maximal run of identifier characters (giving
characters back cannot help, because every identifier character is
non-whitespace while the regex continues with a mandatory whitespace run);
both whitespace runs are consumed greedily; the description is the rest of
the line and may not contain a carriage return or newline, which the `.`
class excludes. -/
def matchModelLine (line : String) : Option (String × String) :=
  match line.toList with
  | [] => none
  | c :: cs =>
    if c.isAlphanum then
      let idChars := (c :: cs).takeWhile isModelIdChar
      let rest1 := (c :: cs).dropWhile isModelIdChar
      let ws1 := rest1.takeWhile jsWs
      let rest2 := rest1.dropWhile jsWs
      if ws1.isEmpty then none
      else
        match rest2 with
        | '-' :: rest3 =>
          let ws2 := rest3.takeWhile jsWs
          let rest4 := rest3.dropWhile jsWs
          if ws2.isEmpty then none
          else if rest4.contains '\r' ∨ rest4.contains '\n' then none
          else some (String.mk idChars, String.mk rest4)
        | _ => none
    else none

/-- Backward scan used by `stripTrailingParen`: walking the reversed
description, remember the remainder past the last '(' seen before hitting a
')' (in reading order: the leftmost '(' after the second-to-last ')'),
which is where the leftmost regex match starts. -/
def scanInnerAux : List Char → Option (List Char) → Option (List Char)
  | [], found => found
  | ')' :: _, found => found
  | '(' :: rest, _ => scanInnerAux rest (some rest)
  | _ :: rest, found => scanInnerAux rest found

/-- `rawName.replace(/\s*\([^)]*\)\s*$/g, "")` (cursorCli.ts line 107):
remove one trailing parenthesized note, together with the whitespace around
it, when present. -/
def stripTrailingParen (s : String) : String :=
  let rev := s.toList.reverse
  let r1 := rev.dropWhile jsWs
  match r1 with
  | ')' :: r2 =>
    match scanInnerAux r2 none with
    | some remRev => String.mk ((remRev.dropWhile jsWs).reverse)
    | none => s
  | _ => s

/-- The model built from one trimmed listing line, when the line is
recognized (cursorCli.ts lines 102-109). -/
def parseModelLine (line : String) : Option CursorCliModel :=
  match matchModelLine line with
  | some (id, rawName) =>
    let name := jsTrim (stripTrailingParen rawName)
    some ⟨id, if name = "" then id else name⟩
  | none => none

/-- `output.split(/\r?\n/g).map((l) => l.trim())` (cursorCli.ts line 99):
split on newlines and trim each piece; any carriage return preceding a
newline is removed by the trim. -/
def splitLines (output : String) : List String :=
  (splitOnChar '\n' output.toList).map (fun l => jsTrim (String.mk l))

/-- One `byId.set(m.id, m)` step of the identifier-keyed map: JS `Map`
keeps the first-insertion position of a key and overwrites its value. -/
def mapSet (acc : List CursorCliModel) (m : CursorCliModel) : List CursorCliModel :=
  if acc.any (fun x => x.id = m.id) then
    acc.map (fun x => if x.id = m.id then m else x)
  else acc ++ [m]

/-- The `byId` deduplication pass of cursorCli.ts lines 111-113. -/
def dedupById (models : List CursorCliModel) : List CursorCliModel :=
  models.foldl mapSet []

/-- The whole parser on a list of (already trimmed) lines. -/
def parseLines (lines : List String) : List CursorCliModel :=
  dedupById (lines.filterMap parseModelLine)

/-- cursorCli.ts `parseCursorCliModels`. -/
def parseCursorCliModels (output : String) : List CursorCliModel :=
  parseLines (splitLines output)

/-- Insert a key into a first-sight key list: keep the existing position
when the key is already present. -/
def keyInsert (acc : List String) (i : String) : List String :=
  if i ∈ acc then acc else acc ++ [i]

/-- The identifiers of a model list in order of first sight. -/
def firstSightKeys (ids : List String) : List String :=
  ids.foldl keyInsert []

/-- The identifier sequence of a model list. -/
def modelIds (l : List CursorCliModel) : List String :=
  l.map CursorCliModel.id

/-! ## Model resolution policy (server.ts lines 79-89) -/

/-- `explicitModel` of server.ts line 81: the normalized request model when
it is present and not the sentinel `"auto"`. -/
def explicitModelOf (rawModel : Option String) : Option String :=
  match normalizeModelId rawModel with
  | some r => if r = "auto" then none else some r
  | none => none

/-- The two outputs of the resolution step: the model passed to the agent
and the pinning state after the request. -/
structure Resolution where
  model : String
  pinned : Option String
  deriving DecidableEq, Repr

/-- Model resolution exactly as server.ts lines 80-89 compute it: the
normalized request model, the explicit (non-auto) model, the pinning-state
update, and the five-way fallback chain. -/
def resolveChatModel (strictModel : Bool) (defaultModel : String)
    (pinned : Option String) (rawModel : Option String) : Resolution :=
  let requested := normalizeModelId rawModel
  let explicitM := explicitModelOf rawModel
  let pinnedAfter :=
    match explicitM with
    | some e => some e
    | none => pinned
  let model :=
    match explicitM with
    | some e => e
    | none =>
      match (if strictModel then pinnedAfter else none) with
      | some p => p
      | none =>
        match requested with
        | some r => r
        | none =>
          match pinnedAfter with
          | some p => p
          | none => defaultModel
  ⟨model, pinnedAfter⟩

/-- Model resolution as the specification words it: five cases in strict
priority order, with the pinning state updated exactly in the first. -/
def resolveChatModelSpec (strictModel : Bool) (defaultModel : String)
    (pinned : Option String) (rawModel : Option String) : Resolution :=
  match normalizeModelId rawModel with
  | some r =>
    if r ≠ "auto" then ⟨r, some r⟩
    else
      match (if strictModel then pinned else none) with
      | some p => ⟨p, pinned⟩
      | none => ⟨r, pinned⟩
  | none =>
    match (if strictModel then pinned else none) with
    | some p => ⟨p, pinned⟩
    | none =>
      match pinned with
      | some p => ⟨p, pinned⟩
      | none => ⟨defaultModel, pinned⟩

/-! ## Bearer token extraction (http.ts `extractBearerToken`) -/

/-- http.ts `extractBearerToken`: match the header value against a
case-insensitive pattern of the word Bearer, a nonempty whitespace run and
a nonempty token reaching the end of the value. When everything after the
word is whitespace, the dot class forces the token to be the final
character of the run (if the run has at least two characters and its final
character is not a newline); otherwise the token is the remainder after the
greedy whitespace run, and may not contain a newline. -/
def extractBearerToken (h : Option String) : Option String :=
  match h with
  | none => none
  | some v =>
    let cs := v.toList
    if (cs.take 6).map Char.toLower = "bearer".toList then
      let rest := cs.drop 6
      let ws := rest.takeWhile jsWs
      let tok := rest.dropWhile jsWs
      if ws.isEmpty then none
      else if tok.isEmpty then
        match ws.getLast? with
        | some c => if c = '\n' ∨ ws.length < 2 then none else some (String.mk [c])
        | none => none
      else if tok.contains '\n' then none
      else some (String.mk tok)
    else none

/-! ## Bridge server (server.ts `startBridgeServer`) -/

/-- Configuration fields of server.ts that the request handler reads
(config.ts `BridgeConfig`). -/
structure BridgeConfig where
  requiredKey : Option String
  defaultModel : String
  mode : String
  force : Bool
  approveMcps : Bool
  strictModel : Bool
  workspace : String
  timeoutMs : Int
  deriving DecidableEq, Repr

/-- The mutable server state shared by all requests (server.ts lines
26-27): the model cache with its fetch time, and the pinning state. -/
structure ServerState where
  modelCache : Option (Int × List CursorCliModel)
  lastRequestedModel : Option String
  deriving DecidableEq, Repr

/-- A parsed chat-completion request body (openai.ts
`OpenAiChatCompletionRequest`). -/
structure ChatRequest where
  model : Option String
  messages : List ChatMessage
  stream : Bool
  deriving DecidableEq, Repr

/-- Observable outcomes of reading and JSON-parsing the request body:
an empty raw body (replaced by the empty object), a body that parses to an
object with the given fields, or a body on which parsing (or field access)
throws with the given message. -/
inductive RequestBody where
  | empty
  | json (req : ChatRequest)
  | malformed (msg : String)
  deriving DecidableEq, Repr

/-- One incoming HTTP request as the handler observes it. -/
structure HttpRequest where
  method : String
  pathname : String
  authorization : Option String
  body : RequestBody
  deriving DecidableEq, Repr

/-- Response body shapes the handler produces. -/
inductive RespBody where
  | health
  | modelList (models : List CursorCliModel)
  | completion (model : String) (content : String) (streamed : Bool)
  | errorEnvelope (message : String) (code : String)
  deriving DecidableEq, Repr

/-- An HTTP response: status code and body shape. -/
structure HttpResponse where
  status : Nat
  body : RespBody
  deriving DecidableEq, Repr

/-- One upstream agent invocation issued while handling a request. -/
inductive AgentCall where
  | listModels
  | chat (model : String) (cmdArgs : List String)
  deriving DecidableEq, Repr

/-- Everything one request produces: the new server state, the response,
and the upstream agent invocations issued. -/
structure HandlerOutcome where
  state : ServerState
  response : HttpResponse
  calls : List AgentCall
  deriving DecidableEq, Repr

/-- The chat body the handler works with: the empty raw body acts as the
empty JSON object; a malformed body has none. -/
def effectiveChatRequest : RequestBody → Option ChatRequest
  | RequestBody.empty => some ⟨none, [], false⟩
  | RequestBody.json r => some r
  | RequestBody.malformed _ => none

/-- The argument vector assembled for a chat invocation (server.ts lines
93-105). -/
def chatCmdArgs (cfg : BridgeConfig) (model prompt : String) : List String :=
  ["--print"]
    ++ (if cfg.approveMcps then ["--approve-mcps"] else [])
    ++ (if cfg.force then ["--force"] else [])
    ++ (if cfg.mode ≠ "agent" then ["--mode", cfg.mode] else [])
    ++ ["--workspace", cfg.workspace, "--model", model, "--output-format", "text", prompt]

/-- The model-cache freshness window: five minutes (server.ts line 57). -/
def freshnessWindowMs : Int := 5 * 60000

/-- The 200 response of GET /v1/models. -/
def modelListResponse (models : List CursorCliModel) : HttpResponse :=
  ⟨200, RespBody.modelList models⟩

/-- The fetch-and-replace arm of GET /v1/models (server.ts lines 58-63):
`listCursorCliModels` either rejects, throws on a non-zero exit, or parses
the listing; a thrown error reaches the outermost catch. -/
def fetchModels (st : ServerState) (now : Int)
    (listRes : Except String RunResult) : HandlerOutcome :=
  match listRes with
  | Except.error e =>
    ⟨st, ⟨500, RespBody.errorEnvelope e "internal_error"⟩, [AgentCall.listModels]⟩
  | Except.ok r =>
    if r.code ≠ 0 then
      ⟨st, ⟨500, RespBody.errorEnvelope
          ("agent --list-models failed: " ++ jsTrim r.stderr) "internal_error"⟩,
        [AgentCall.listModels]⟩
    else
      let models := parseCursorCliModels r.stdout
      ⟨⟨some (now, models), st.lastRequestedModel⟩, modelListResponse models,
        [AgentCall.listModels]⟩

/-- GET /v1/models (server.ts lines 55-75): serve the cache while it is at
most five minutes old, otherwise fetch and replace it. -/
def handleModelsGet (st : ServerState) (now : Int)
    (listRes : Except String RunResult) : HandlerOutcome :=
  match st.modelCache with
  | some (t, ms) =>
    if now - t > freshnessWindowMs then fetchModels st now listRes
    else ⟨st, modelListResponse ms, []⟩
  | none => fetchModels st now listRes

/-- POST /v1/chat/completions on a successfully parsed body (server.ts
lines 80-179): resolve the model, update the pinning state, build the
prompt, invoke the agent, and shape the response; a rejected invocation
reaches the outermost catch. -/
def handleChatBody (cfg : BridgeConfig) (st : ServerState)
    (chatRes : Except String RunResult) (req : ChatRequest) : HandlerOutcome :=
  let r := resolveChatModel cfg.strictModel cfg.defaultModel st.lastRequestedModel req.model
  let st1 : ServerState := ⟨st.modelCache, r.pinned⟩
  let prompt := buildPromptFromMessages req.messages
  let call := AgentCall.chat r.model (chatCmdArgs cfg r.model prompt)
  match chatRes with
  | Except.error e =>
    ⟨st1, ⟨500, RespBody.errorEnvelope e "internal_error"⟩, [call]⟩
  | Except.ok out =>
    if out.code ≠ 0 then
      ⟨st1, ⟨500, RespBody.errorEnvelope
          ("Cursor CLI failed (exit " ++ toString out.code ++ "): " ++ jsTrim out.stderr)
          "cursor_cli_error"⟩, [call]⟩
    else
      ⟨st1, ⟨200, RespBody.completion r.model (jsTrim out.stdout) req.stream⟩, [call]⟩

/-- Routing after the authentication gate (server.ts lines 41-182). -/
def handleAfterAuth (cfg : BridgeConfig) (st : ServerState) (req : HttpRequest)
    (now : Int) (listRes chatRes : Except String RunResult) : HandlerOutcome :=
  if req.method = "GET" ∧ req.pathname = "/health" then
    ⟨st, ⟨200, RespBody.health⟩, []⟩
  else if req.method = "GET" ∧ req.pathname = "/v1/models" then
    handleModelsGet st now listRes
  else if req.method = "POST" ∧ req.pathname = "/v1/chat/completions" then
    match req.body with
    | RequestBody.malformed msg =>
      ⟨st, ⟨500, RespBody.errorEnvelope msg "internal_error"⟩, []⟩
    | RequestBody.empty => handleChatBody cfg st chatRes ⟨none, [], false⟩
    | RequestBody.json r => handleChatBody cfg st chatRes r
  else ⟨st, ⟨404, RespBody.errorEnvelope "Not found" "not_found"⟩, []⟩

/-- Whether the authentication gate is active: `if (config.requiredKey)`
holds for a configured, non-empty key (server.ts line 33). -/
def keyGateActive (cfg : BridgeConfig) : Bool :=
  match cfg.requiredKey with
  | some k => decide (k ≠ "")
  | none => false

/-- The whole request handler (server.ts lines 29-191): the authentication
gate first, then routing. -/
def handleRequest (cfg : BridgeConfig) (st : ServerState) (req : HttpRequest)
    (now : Int) (listRes chatRes : Except String RunResult) : HandlerOutcome :=
  if keyGateActive cfg ∧ extractBearerToken req.authorization ≠ cfg.requiredKey then
    ⟨st, ⟨401, RespBody.errorEnvelope "Invalid API key" "unauthorized"⟩, []⟩
  else handleAfterAuth cfg st req now listRes chatRes

/-- One incoming request together with its clock reading and the outcomes
of the upstream invocations it may issue. -/
structure IncomingRequest where
  req : HttpRequest
  now : Int
  listRes : Except String RunResult
  chatRes : Except String RunResult

/-- State transition of one request. -/
def serverStep (cfg : BridgeConfig) (st : ServerState) (r : IncomingRequest) : ServerState :=
  (handleRequest cfg st r.req r.now r.listRes r.chatRes).state

/-- The server state after a sequence of requests. -/
def runServer (cfg : BridgeConfig) (st : ServerState) (rs : List IncomingRequest) : ServerState :=
  rs.foldl (serverStep cfg) st

end Bridge

namespace Patch

open Bridge

/-- Externally visible steps of one `cursor_cli_patch` execution
(index.ts lines 563-714), in execution order. -/
inductive PatchStep where
  | gitStatus
  | mkdtemp
  | worktreeAdd
  | runAgent
  | addIntent
  | diffPatch
  | diffNameStatus
  | worktreeRemovePlain
  | worktreeRemoveForce
  | rmTempDir
  deriving DecidableEq, Repr

/-- Caller arguments of `cursor_cli_patch`, with the defaults of index.ts
lines 570-571 and 614 already applied. -/
structure PatchArgs where
  prompt : String
  model : Option String
  mode : String
  allowDirty : Bool
  keepTemp : Bool
  deriving DecidableEq, Repr

/-- Outcomes of the process invocations one execution performs. The
invocations inside the try block may reject (spawn failure), modelled by
the error side; `git status` and the cleanup invocations are modelled as
resolving (git already spawned for the status query). -/
structure PatchEnv where
  repoRoot : Option String
  statusRes : RunResult
  wtAddRes : Except String RunResult
  agentRes : Except String RunResult
  addIntentRes : Except String RunResult
  diffRes : Except String RunResult
  nameStatusRes : Except String RunResult
  plainRemoveRes : RunResult
  deriving Repr

/-- `[...].filter(Boolean).join("\n")` over the envelope pieces. -/
def joinNonEmpty (xs : List String) : String :=
  String.intercalate "\n" (xs.filter (fun s => s ≠ ""))

/-- One named envelope section with the given tag. -/
def wrapSection (tag body : String) : String :=
  "<" ++ tag ++ ">\n" ++ body ++ "\n</" ++ tag ++ ">"

/-- The text envelope returned on success (index.ts lines 665-697). -/
def patchEnvelope (cursorOut cursorErr patchText summary : String) : String :=
  if patchText = "" then
    joinNonEmpty
      ["<cursor_cli_patch>",
       "<message>Cursor completed, but produced no git diff (no changes).</message>",
       if summary ≠ "" then wrapSection "summary" summary else "",
       if cursorOut ≠ "" then wrapSection "cursor_stdout" cursorOut else "",
       if cursorErr ≠ "" then wrapSection "cursor_stderr" cursorErr else "",
       "</cursor_cli_patch>"]
  else
    joinNonEmpty
      ["<cursor_cli_patch>",
       if summary ≠ "" then wrapSection "summary" summary else "",
       if cursorOut ≠ "" then wrapSection "cursor_stdout" cursorOut else "",
       if cursorErr ≠ "" then wrapSection "cursor_stderr" cursorErr else "",
       "<patch>",
       patchText,
       "</patch>",
       "</cursor_cli_patch>"]

/-- The try block of `cursor_cli_patch` (index.ts lines 596-697): worktree
registration, agent invocation, intent-to-add, diff, name-status summary
and envelope construction, with the trace of steps it performed. -/
def patchBody (env : PatchEnv) : Except String String × List PatchStep :=
  match env.wtAddRes with
  | Except.error e => (Except.error e, [PatchStep.worktreeAdd])
  | Except.ok wtAdd =>
    if wtAdd.code ≠ 0 then
      (Except.error ("git worktree add failed.\n" ++ jsOr (jsTrim wtAdd.stderr) (jsTrim wtAdd.stdout)),
       [PatchStep.worktreeAdd])
    else
      match env.agentRes with
      | Except.error e => (Except.error e, [PatchStep.worktreeAdd, PatchStep.runAgent])
      | Except.ok cursorRes =>
        if cursorRes.code ≠ 0 then
          (Except.error ("Cursor CLI failed inside worktree (exit " ++ toString cursorRes.code
              ++ ").\nstderr: " ++ jsTrim cursorRes.stderr),
           [PatchStep.worktreeAdd, PatchStep.runAgent])
        else
          match env.addIntentRes with
          | Except.error e =>
            (Except.error e, [PatchStep.worktreeAdd, PatchStep.runAgent, PatchStep.addIntent])
          | Except.ok addIntent =>
            if addIntent.code ≠ 0 then
              (Except.error ("git add -N failed.\n" ++ jsOr (jsTrim addIntent.stderr) (jsTrim addIntent.stdout)),
               [PatchStep.worktreeAdd, PatchStep.runAgent, PatchStep.addIntent])
            else
              match env.diffRes with
              | Except.error e =>
                (Except.error e,
                 [PatchStep.worktreeAdd, PatchStep.runAgent, PatchStep.addIntent, PatchStep.diffPatch])
              | Except.ok diff =>
                if diff.code ≠ 0 then
                  (Except.error ("git diff failed.\n" ++ jsOr (jsTrim diff.stderr) (jsTrim diff.stdout)),
                   [PatchStep.worktreeAdd, PatchStep.runAgent, PatchStep.addIntent, PatchStep.diffPatch])
                else
                  match env.nameStatusRes with
                  | Except.error e =>
                    (Except.error e,
                     [PatchStep.worktreeAdd, PatchStep.runAgent, PatchStep.addIntent,
                      PatchStep.diffPatch, PatchStep.diffNameStatus])
                  | Except.ok nameStatus =>
                    let patchText := jsTrimEnd diff.stdout
                    let summary := if nameStatus.code = 0 then jsTrim nameStatus.stdout else ""
                    (Except.ok (patchEnvelope (jsTrim cursorRes.stdout) (jsTrim cursorRes.stderr)
                        patchText summary),
                     [PatchStep.worktreeAdd, PatchStep.runAgent, PatchStep.addIntent,
                      PatchStep.diffPatch, PatchStep.diffNameStatus])

/-- The finally block (index.ts lines 698-714): nothing when the caller
asked to keep the temporary directory; otherwise a plain worktree removal,
a forced removal when the plain one exits non-zero, and removal of the
directory tree. -/
def patchCleanup (args : PatchArgs) (env : PatchEnv) : List PatchStep :=
  if args.keepTemp then []
  else
    PatchStep.worktreeRemovePlain ::
      ((if env.plainRemoveRes.code ≠ 0 then [PatchStep.worktreeRemoveForce] else []) ++
        [PatchStep.rmTempDir])

/-- The whole `cursor_cli_patch` execution: precondition checks, temporary
directory creation, the try block, and the unconditional finally block,
together with the full step trace. -/
def cursorCliPatch (args : PatchArgs) (env : PatchEnv) : Except String String × List PatchStep :=
  match env.repoRoot with
  | none =>
    (Except.error "cursor_cli_patch requires a git repository (no worktree detected).", [])
  | some _ =>
    if env.statusRes.code ≠ 0 then
      (Except.error ("git status failed.\n" ++ jsOr (jsTrim env.statusRes.stderr) (jsTrim env.statusRes.stdout)),
       [PatchStep.gitStatus])
    else if args.allowDirty = false ∧ jsTrim env.statusRes.stdout ≠ "" then
      (Except.error "Working tree is not clean. Commit/stash changes (or pass allowDirty=true).",
       [PatchStep.gitStatus])
    else
      let body := patchBody env
      (body.1, PatchStep.gitStatus :: PatchStep.mkdtemp :: (body.2 ++ patchCleanup args env))

end Patch

/-! ## Theorems -/

namespace Bridge

/-- The pinning state after resolution: updated exactly when an explicit
model is present. -/
theorem resolve_pinned (s : Bool) (d : String) (p : Option String) (raw : Option String) :
    (resolveChatModel s d p raw).pinned =
      match explicitModelOf raw with
      | some e => some e
      | none => p := rfl

/-- The code's resolution chain coincides with the five-case priority
order stated by the specification. -/
theorem resolve_eq_spec (strict : Bool) (dflt : String) (pinned : Option String)
    (raw : Option String) :
    resolveChatModel strict dflt pinned raw = resolveChatModelSpec strict dflt pinned raw := by
  rcases h : normalizeModelId raw with _ | r
  · simp only [resolveChatModel, resolveChatModelSpec, explicitModelOf, h]
    cases strict <;> cases pinned <;> simp
  · by_cases hr : r = "auto"
    · subst hr
      simp only [resolveChatModel, resolveChatModelSpec, explicitModelOf, h]
      cases strict <;> cases pinned <;> simp
    · simp only [resolveChatModel, resolveChatModelSpec, explicitModelOf, h]
      cases strict <;> cases pinned <;> simp [hr]

/-- Agent call and state produced by the chat-body handler, for every
invocation outcome. -/
theorem handleChatBody_parts (cfg : BridgeConfig) (st : ServerState)
    (cr : Except String RunResult) (r : ChatRequest) :
    (handleChatBody cfg st cr r).calls =
      [AgentCall.chat
        (resolveChatModel cfg.strictModel cfg.defaultModel st.lastRequestedModel r.model).model
        (chatCmdArgs cfg
          (resolveChatModel cfg.strictModel cfg.defaultModel st.lastRequestedModel r.model).model
          (buildPromptFromMessages r.messages))] ∧
    (handleChatBody cfg st cr r).state =
      ⟨st.modelCache,
        (resolveChatModel cfg.strictModel cfg.defaultModel st.lastRequestedModel r.model).pinned⟩ := by
  unfold handleChatBody
  rcases cr with e | out
  · exact ⟨rfl, rfl⟩
  · by_cases h : out.code ≠ 0 <;> simp [h]

/-- A request that passes the authentication gate and addresses the
chat-completions route with a parsed body is handled by the chat-body
handler. -/
theorem handleRequest_chat_json (cfg : BridgeConfig) (st : ServerState) (req : HttpRequest)
    (now : Int) (lr cr : Except String RunResult) (b : ChatRequest)
    (hauth : keyGateActive cfg = true → extractBearerToken req.authorization = cfg.requiredKey)
    (hm : req.method = "POST") (hp : req.pathname = "/v1/chat/completions")
    (hb : req.body = RequestBody.json b) :
    handleRequest cfg st req now lr cr = handleChatBody cfg st cr b := by
  unfold handleRequest
  rw [if_neg]
  · unfold handleAfterAuth
    rw [hm, hp, hb]
    simp
  · rintro ⟨hg, hne⟩
    exact hne (hauth hg)

end Bridge

namespace Patch

open Bridge

/-- No cleanup step is ever produced by the try block itself. -/
theorem patchBody_no_cleanup_steps (env : PatchEnv) :
    PatchStep.worktreeRemovePlain ∉ (patchBody env).2 ∧
    PatchStep.worktreeRemoveForce ∉ (patchBody env).2 ∧
    PatchStep.rmTempDir ∉ (patchBody env).2 := by
  obtain ⟨rr, stt, wt, ag, ai, df, ns, pr⟩ := env
  rcases wt with e1 | w <;> rcases ag with e2 | a <;> rcases ai with e3 | b <;>
    rcases df with e4 | d <;> rcases ns with e5 | n <;>
    simp only [patchBody] <;> (try split_ifs) <;> simp

/-- C3: whenever `cursor_cli_patch` reaches creation of the temporary
directory, every exit path of the try block — success or an error at
worktree registration, agent invocation, intent-to-add, diff, or the
name-status query — is followed by the finally block: a plain worktree
removal, a forced removal exactly when the plain removal exits non-zero,
and deletion of the temporary directory tree; the cleanup does not alter
the outcome; and when the caller requested retention (`keepTemp`) no
removal step is performed at all. -/
theorem patch_cleanup_on_all_paths :
    (∀ (args : PatchArgs) (env : PatchEnv) (r : String), env.repoRoot = some r →
      env.statusRes.code = 0 →
      (args.allowDirty = true ∨ jsTrim env.statusRes.stdout = "") →
      args.keepTemp = false →
      (cursorCliPatch args env).2 =
        PatchStep.gitStatus :: PatchStep.mkdtemp ::
          ((patchBody env).2 ++
            (PatchStep.worktreeRemovePlain ::
              ((if env.plainRemoveRes.code ≠ 0 then [PatchStep.worktreeRemoveForce] else []) ++
                [PatchStep.rmTempDir]))) ∧
      (cursorCliPatch args env).1 = (patchBody env).1) ∧
    (∀ (args : PatchArgs) (env : PatchEnv), args.keepTemp = true →
      PatchStep.worktreeRemovePlain ∉ (cursorCliPatch args env).2 ∧
      PatchStep.worktreeRemoveForce ∉ (cursorCliPatch args env).2 ∧
      PatchStep.rmTempDir ∉ (cursorCliPatch args env).2) := by
  constructor
  · intro args env r hroot hcode hclean hkeep
    have hdirty : ¬(args.allowDirty = false ∧ jsTrim env.statusRes.stdout ≠ "") := by
      rcases hclean with h | h
      · rintro ⟨h1, _⟩; rw [h] at h1; cases h1
      · rintro ⟨_, h2⟩; exact h2 h
    unfold cursorCliPatch
    rw [hroot]
    simp only [hcode]
    rw [if_neg (by simp), if_neg hdirty]
    unfold patchCleanup
    rw [hkeep]
    simp
  · intro args env hkeep
    have hbody := patchBody_no_cleanup_steps env
    have hclean : patchCleanup args env = [] := by simp [patchCleanup, hkeep]
    unfold cursorCliPatch
    rcases henv : env.repoRoot with _ | r
    · simp
    · split_ifs <;> simp [hclean, hbody.1, hbody.2.1, hbody.2.2]

/-- Closed instance of the cleanup theorem: a successful run on a clean
tree removes the worktree and the temporary directory, forcing the removal
exactly when the plain removal fails. -/
theorem patch_cleanup_on_all_paths_check :
    (cursorCliPatch ⟨"p", none, "agent", false, false⟩
      ⟨some "/r", ⟨0, "", ""⟩, Except.ok ⟨0, "", ""⟩, Except.ok ⟨0, "done", ""⟩,
       Except.ok ⟨0, "", ""⟩, Except.ok ⟨0, "d", ""⟩, Except.ok ⟨0, "M\tf", ""⟩,
       ⟨1, "", ""⟩⟩).2 =
      PatchStep.gitStatus :: PatchStep.mkdtemp ::
        ((patchBody
          ⟨some "/r", ⟨0, "", ""⟩, Except.ok ⟨0, "", ""⟩, Except.ok ⟨0, "done", ""⟩,
           Except.ok ⟨0, "", ""⟩, Except.ok ⟨0, "d", ""⟩, Except.ok ⟨0, "M\tf", ""⟩,
           ⟨1, "", ""⟩⟩).2 ++
          (PatchStep.worktreeRemovePlain ::
            ((if (1 : Int) ≠ 0 then [PatchStep.worktreeRemoveForce] else []) ++
              [PatchStep.rmTempDir]))) :=
  ((patch_cleanup_on_all_paths.1 ⟨"p", none, "agent", false, false⟩
    ⟨some "/r", ⟨0, "", ""⟩, Except.ok ⟨0, "", ""⟩, Except.ok ⟨0, "done", ""⟩,
     Except.ok ⟨0, "", ""⟩, Except.ok ⟨0, "d", ""⟩, Except.ok ⟨0, "M\tf", ""⟩,
     ⟨1, "", ""⟩⟩ "/r" rfl rfl (Or.inr (by decide)) rfl).1)

/-- C7: on a dirty working tree without the `allowDirty` override, the
tool fails with the documented error after the status query, and the trace
shows no temporary directory creation, no worktree registration and no
removal step — the precondition failure has no side effects. -/
theorem patch_dirty_tree_precondition :
    ∀ (args : PatchArgs) (env : PatchEnv) (r : String), env.repoRoot = some r →
      env.statusRes.code = 0 →
      args.allowDirty = false →
      jsTrim env.statusRes.stdout ≠ "" →
      (cursorCliPatch args env).1 =
        Except.error "Working tree is not clean. Commit/stash changes (or pass allowDirty=true)." ∧
      (cursorCliPatch args env).2 = [PatchStep.gitStatus] ∧
      PatchStep.mkdtemp ∉ (cursorCliPatch args env).2 ∧
      PatchStep.worktreeAdd ∉ (cursorCliPatch args env).2 ∧
      PatchStep.worktreeRemovePlain ∉ (cursorCliPatch args env).2 := by
  intro args env r hroot hcode hdirtyFlag hdirty
  unfold cursorCliPatch
  rw [hroot]
  simp only [hcode]
  rw [if_neg (by simp), if_pos ⟨hdirtyFlag, hdirty⟩]
  refine ⟨rfl, rfl, ?_, ?_, ?_⟩ <;> simp

/-- Closed instance of the dirty-tree precondition theorem at a concrete
porcelain status output. -/
theorem patch_dirty_tree_precondition_check :
    (cursorCliPatch ⟨"p", none, "agent", false, false⟩
      ⟨some "/r", ⟨0, " M f\n", ""⟩, Except.ok ⟨0, "", ""⟩, Except.ok ⟨0, "", ""⟩,
       Except.ok ⟨0, "", ""⟩, Except.ok ⟨0, "", ""⟩, Except.ok ⟨0, "", ""⟩,
       ⟨0, "", ""⟩⟩).1 =
      Except.error "Working tree is not clean. Commit/stash changes (or pass allowDirty=true)." ∧
    (cursorCliPatch ⟨"p", none, "agent", false, false⟩
      ⟨some "/r", ⟨0, " M f\n", ""⟩, Except.ok ⟨0, "", ""⟩, Except.ok ⟨0, "", ""⟩,
       Except.ok ⟨0, "", ""⟩, Except.ok ⟨0, "", ""⟩, Except.ok ⟨0, "", ""⟩,
       ⟨0, "", ""⟩⟩).2 = [PatchStep.gitStatus] :=
  ⟨(patch_dirty_tree_precondition ⟨"p", none, "agent", false, false⟩
      ⟨some "/r", ⟨0, " M f\n", ""⟩, Except.ok ⟨0, "", ""⟩, Except.ok ⟨0, "", ""⟩,
       Except.ok ⟨0, "", ""⟩, Except.ok ⟨0, "", ""⟩, Except.ok ⟨0, "", ""⟩,
       ⟨0, "", ""⟩⟩ "/r" rfl rfl rfl (by decide)).1,
   (patch_dirty_tree_precondition ⟨"p", none, "agent", false, false⟩
      ⟨some "/r", ⟨0, " M f\n", ""⟩, Except.ok ⟨0, "", ""⟩, Except.ok ⟨0, "", ""⟩,
       Except.ok ⟨0, "", ""⟩, Except.ok ⟨0, "", ""⟩, Except.ok ⟨0, "", ""⟩,
       ⟨0, "", ""⟩⟩ "/r" rfl rfl rfl (by decide)).2.1⟩

end Patch

namespace Bridge

/-- C2 counterexample: a child terminated by the timeout's SIGKILL closes
with a null code, which `run` coalesces to exit code 0 — the very value a
clean successful exit reports, so the two are not distinguishable through
`RunResult`. -/
theorem run_timeout_exit_code_collapse :
    (resolveOnClose "" "" (ChildExit.signaled timeoutKillSignal)).code = 0 ∧
    (resolveOnClose "" "" (ChildExit.exited 0)).code = 0 :=
  ⟨rfl, rfl⟩

/-- C2 amended: when `timeoutMilliseconds` is set (positive) the kill
timer is armed and fires SIGKILL; the resulting exit code for a
signal-terminated child is 0 — indistinguishable from a clean successful
exit — while a child that exits on its own keeps its numeric code. -/
theorem run_timeout_sigkill_behavior :
    (∀ (opts : RunOptions) (t : Int), opts.timeoutMs = some t → 0 < t →
      signalOnTimerFire opts = some "SIGKILL") ∧
    (∀ out err sig, (resolveOnClose out err (ChildExit.signaled sig)).code = 0) ∧
    (∀ out err c, (resolveOnClose out err (ChildExit.exited c)).code = c) := by
  refine ⟨?_, fun _ _ _ => rfl, fun _ _ _ => rfl⟩
  intro opts t ht hpos
  unfold signalOnTimerFire timerArmed
  rw [ht]
  simp [hpos, timeoutKillSignal]

/-- Closed instance of the amended timeout theorem at a concrete positive
timeout. -/
theorem run_timeout_sigkill_behavior_check :
    signalOnTimerFire ⟨none, some 5000⟩ = some "SIGKILL" ∧
    (resolveOnClose "" "boom" (ChildExit.signaled "SIGKILL")).code = 0 :=
  ⟨run_timeout_sigkill_behavior.1 ⟨none, some 5000⟩ 5000 rfl (by decide),
   run_timeout_sigkill_behavior.2.1 "" "boom" "SIGKILL"⟩

/-- C1: the model passed to the agent invocation follows the five-case
priority order of the specification — explicit non-auto request model
first (updating the pinning state exactly then), pinned model under
strict-pinning second, the normalized request model (possibly the stripped
sentinel) third, the pinned model fourth, the configured default fifth —
both as an identity between the code's resolution chain and the
specification's case split, and at the level of the handled request. -/
theorem model_resolution_priority :
    (∀ strict dflt pinned raw,
      resolveChatModel strict dflt pinned raw = resolveChatModelSpec strict dflt pinned raw) ∧
    (∀ (cfg : BridgeConfig) (st : ServerState) (req : HttpRequest) (now : Int)
        (lr cr : Except String RunResult) (b : ChatRequest),
      (keyGateActive cfg = true → extractBearerToken req.authorization = cfg.requiredKey) →
      req.method = "POST" → req.pathname = "/v1/chat/completions" →
      req.body = RequestBody.json b →
      (handleRequest cfg st req now lr cr).calls =
        [AgentCall.chat
          (resolveChatModelSpec cfg.strictModel cfg.defaultModel st.lastRequestedModel b.model).model
          (chatCmdArgs cfg
            (resolveChatModelSpec cfg.strictModel cfg.defaultModel st.lastRequestedModel b.model).model
            (buildPromptFromMessages b.messages))] ∧
      (handleRequest cfg st req now lr cr).state.lastRequestedModel =
        (resolveChatModelSpec cfg.strictModel cfg.defaultModel st.lastRequestedModel b.model).pinned) := by
  refine ⟨resolve_eq_spec, ?_⟩
  intro cfg st req now lr cr b hauth hm hp hb
  rw [handleRequest_chat_json cfg st req now lr cr b hauth hm hp hb]
  have h := handleChatBody_parts cfg st cr b
  rw [← resolve_eq_spec cfg.strictModel cfg.defaultModel st.lastRequestedModel b.model]
  exact ⟨h.1, by rw [h.2]⟩

/-- Closed instance of the resolution theorem: an explicit
provider-qualified model is normalized, used and pinned. -/
theorem model_resolution_priority_check :
    (handleRequest ⟨none, "auto", "ask", false, false, true, "/w", 300000⟩ ⟨none, none⟩
      ⟨"POST", "/v1/chat/completions", none,
        RequestBody.json ⟨some "vendor/gpt-X", [⟨"user", MessageContent.str "hi"⟩], false⟩⟩
      0 (Except.ok ⟨0, "", ""⟩) (Except.ok ⟨0, "ok", ""⟩)).calls =
      [AgentCall.chat
        (resolveChatModelSpec true "auto" none (some "vendor/gpt-X")).model
        (chatCmdArgs ⟨none, "auto", "ask", false, false, true, "/w", 300000⟩
          (resolveChatModelSpec true "auto" none (some "vendor/gpt-X")).model
          (buildPromptFromMessages [⟨"user", MessageContent.str "hi"⟩]))] ∧
    (handleRequest ⟨none, "auto", "ask", false, false, true, "/w", 300000⟩ ⟨none, none⟩
      ⟨"POST", "/v1/chat/completions", none,
        RequestBody.json ⟨some "vendor/gpt-X", [⟨"user", MessageContent.str "hi"⟩], false⟩⟩
      0 (Except.ok ⟨0, "", ""⟩) (Except.ok ⟨0, "ok", ""⟩)).state.lastRequestedModel =
      (resolveChatModelSpec true "auto" none (some "vendor/gpt-X")).pinned :=
  model_resolution_priority.2 ⟨none, "auto", "ask", false, false, true, "/w", 300000⟩ ⟨none, none⟩
    ⟨"POST", "/v1/chat/completions", none,
      RequestBody.json ⟨some "vendor/gpt-X", [⟨"user", MessageContent.str "hi"⟩], false⟩⟩
    0 (Except.ok ⟨0, "", ""⟩) (Except.ok ⟨0, "ok", ""⟩)
    ⟨some "vendor/gpt-X", [⟨"user", MessageContent.str "hi"⟩], false⟩
    (by intro h; cases h) rfl rfl rfl

/-- The two accumulators of the code's prompt construction coincide with
the specification's filtered views of the message sequence. -/
theorem collectParts_eq (msgs : List ChatMessage) :
    collectParts msgs = (sysTextsSpec msgs, transcriptLinesSpec msgs) := by
  induction msgs with
  | nil => rfl
  | cons m rest ih =>
    simp only [collectParts, sysTextsSpec, transcriptLinesSpec, List.filterMap_cons] at *
    by_cases ht : messageContentToText m.content = ""
    · simp [ht, ih]
    · by_cases hs : m.role = "system" ∨ m.role = "developer"
      · simp [ht, hs, ih]
      · by_cases hu : m.role = "user"
        · simp [ht, hs, hu, roleLabel, ih]
        · by_cases ha : m.role = "assistant"
          · simp [ht, hs, hu, ha, roleLabel, ih]
          · by_cases htl : m.role = "tool" ∨ m.role = "function"
            · simp [ht, hs, hu, ha, htl, roleLabel, ih]
            · have h1 : ¬m.role = "tool" := fun h => htl (Or.inl h)
              have h2 : ¬m.role = "function" := fun h => htl (Or.inr h)
              simp [ht, hs, hu, ha, h1, h2, roleLabel, ih]

/-- C6: the constructed prompt equals the specification's shape — the
system block present (with its header and trailing blank line) only when
some system/developer message has non-empty text, the transcript rendered
with the User/Assistant/Tool labels ("tool" and "function" both mapping to
"Tool"), empty-text messages skipped entirely — and the prompt always ends
in the completion suffix, which is the whole prompt when every message is
non-renderable. -/
theorem build_prompt_shape :
    (∀ msgs, buildPromptFromMessages msgs = buildPromptSpec msgs) ∧
    (∀ msgs, (∀ m ∈ msgs, messageContentToText m.content = "") →
      buildPromptFromMessages msgs = "\n\nAssistant:") ∧
    (∀ msgs, ∃ t, buildPromptFromMessages msgs = t ++ "\n\nAssistant:") := by
  refine ⟨?_, ?_, fun msgs => ⟨_, rfl⟩⟩
  · intro msgs
    simp [buildPromptFromMessages, buildPromptSpec, collectParts_eq, List.isEmpty_iff]
  · intro msgs h
    have hsys : sysTextsSpec msgs = [] := by
      refine List.filterMap_eq_nil_iff.mpr fun m hm => ?_
      simp [h m hm]
    have htr : transcriptLinesSpec msgs = [] := by
      refine List.filterMap_eq_nil_iff.mpr fun m hm => ?_
      simp [h m hm]
    have hmain : buildPromptFromMessages msgs = buildPromptSpec msgs := by
      simp [buildPromptFromMessages, buildPromptSpec, collectParts_eq, List.isEmpty_iff]
    rw [hmain]
    unfold buildPromptSpec
    rw [hsys, htr]
    rfl

/-- Closed instance of the prompt theorem: a sequence carrying only
non-renderable content produces the bare completion suffix. -/
theorem build_prompt_shape_check :
    buildPromptFromMessages
      [⟨"user", MessageContent.other⟩,
       ⟨"assistant", MessageContent.parts [ContentPart.other]⟩,
       ⟨"system", MessageContent.str ""⟩] = "\n\nAssistant:" :=
  build_prompt_shape.2.1
    [⟨"user", MessageContent.other⟩,
     ⟨"assistant", MessageContent.parts [ContentPart.other]⟩,
     ⟨"system", MessageContent.str ""⟩]
    (by decide)

/-- Every chat-body outcome is a 200 or a 500. -/
theorem handleChatBody_status (cfg : BridgeConfig) (st : ServerState)
    (cr : Except String RunResult) (r : ChatRequest) :
    (handleChatBody cfg st cr r).response.status = 200 ∨
    (handleChatBody cfg st cr r).response.status = 500 := by
  unfold handleChatBody
  rcases cr with e | out
  · right; rfl
  · by_cases h : out.code ≠ 0
    · right; simp [h]
    · left; simp [h]

/-- Every fetch-and-replace outcome is a 200 or a 500. -/
theorem fetchModels_status (st : ServerState) (now : Int) (lr : Except String RunResult) :
    (fetchModels st now lr).response.status = 200 ∨
    (fetchModels st now lr).response.status = 500 := by
  unfold fetchModels
  rcases lr with e | r
  · right; rfl
  · by_cases h : r.code ≠ 0
    · right; simp [h]
    · left; simp [h, modelListResponse]

/-- Every model-listing outcome is a 200 or a 500. -/
theorem handleModelsGet_status (st : ServerState) (now : Int) (lr : Except String RunResult) :
    (handleModelsGet st now lr).response.status = 200 ∨
    (handleModelsGet st now lr).response.status = 500 := by
  obtain ⟨mc, lrm⟩ := st
  rcases mc with _ | ⟨t, ms⟩
  · exact fetchModels_status ⟨none, lrm⟩ now lr
  · unfold handleModelsGet
    by_cases h : now - t > freshnessWindowMs
    · simpa [h] using fetchModels_status ⟨some (t, ms), lrm⟩ now lr
    · left; simp [h, modelListResponse]

/-- The model-listing route never touches the pinning state. -/
theorem handleModelsGet_pin (st : ServerState) (now : Int) (lr : Except String RunResult) :
    (handleModelsGet st now lr).state.lastRequestedModel = st.lastRequestedModel := by
  obtain ⟨mc, lrm⟩ := st
  have hfetch : ∀ s : ServerState, (fetchModels s now lr).state.lastRequestedModel =
      s.lastRequestedModel := by
    intro s
    unfold fetchModels
    rcases lr with e | r
    · rfl
    · by_cases h : r.code ≠ 0 <;> simp [h]
  rcases mc with _ | ⟨t, ms⟩
  · exact hfetch ⟨none, lrm⟩
  · unfold handleModelsGet
    by_cases h : now - t > freshnessWindowMs
    · simpa [h] using hfetch ⟨some (t, ms), lrm⟩
    · simp [h]

/-- C9: with a configured non-empty bearer token, any request whose
extracted token differs from it — on any method and path, health included —
receives the uniform 401 error envelope with no state change and no agent
invocation, before any routing; a request presenting the exact token is
handled exactly as if no gate existed. -/
theorem auth_gate_precedes_routing :
    (∀ (cfg : BridgeConfig) (st : ServerState) (req : HttpRequest) (now : Int)
        (lr cr : Except String RunResult) (key : String),
      cfg.requiredKey = some key → key ≠ "" →
      extractBearerToken req.authorization ≠ some key →
      handleRequest cfg st req now lr cr =
        ⟨st, ⟨401, RespBody.errorEnvelope "Invalid API key" "unauthorized"⟩, []⟩) ∧
    (∀ (cfg : BridgeConfig) (st : ServerState) (req : HttpRequest) (now : Int)
        (lr cr : Except String RunResult) (key : String),
      cfg.requiredKey = some key →
      extractBearerToken req.authorization = some key →
      handleRequest cfg st req now lr cr = handleAfterAuth cfg st req now lr cr) := by
  constructor
  · intro cfg st req now lr cr key hkey hne hmis
    unfold handleRequest
    rw [if_pos]
    refine ⟨?_, ?_⟩
    · simp [keyGateActive, hkey, hne]
    · rw [hkey]; exact hmis
  · intro cfg st req now lr cr key hkey heq
    unfold handleRequest
    rw [if_neg]
    rintro ⟨hg, hne⟩
    exact hne (by rw [hkey, ← heq])

/-- Closed instance of the gate theorem: a missing header on the health
route yields the 401 envelope, and the exact token reaches routing. -/
theorem auth_gate_precedes_routing_check :
    handleRequest ⟨some "k", "auto", "ask", false, false, true, "/w", 300000⟩ ⟨none, none⟩
      ⟨"GET", "/health", none, RequestBody.empty⟩ 0
      (Except.ok ⟨0, "", ""⟩) (Except.ok ⟨0, "", ""⟩) =
      ⟨⟨none, none⟩, ⟨401, RespBody.errorEnvelope "Invalid API key" "unauthorized"⟩, []⟩ ∧
    handleRequest ⟨some "k", "auto", "ask", false, false, true, "/w", 300000⟩ ⟨none, none⟩
      ⟨"GET", "/health", some "Bearer k", RequestBody.empty⟩ 0
      (Except.ok ⟨0, "", ""⟩) (Except.ok ⟨0, "", ""⟩) =
      handleAfterAuth ⟨some "k", "auto", "ask", false, false, true, "/w", 300000⟩ ⟨none, none⟩
        ⟨"GET", "/health", some "Bearer k", RequestBody.empty⟩ 0
        (Except.ok ⟨0, "", ""⟩) (Except.ok ⟨0, "", ""⟩) :=
  ⟨auth_gate_precedes_routing.1 ⟨some "k", "auto", "ask", false, false, true, "/w", 300000⟩
    ⟨none, none⟩ ⟨"GET", "/health", none, RequestBody.empty⟩ 0
    (Except.ok ⟨0, "", ""⟩) (Except.ok ⟨0, "", ""⟩) "k" rfl (by decide) (by decide),
   auth_gate_precedes_routing.2 ⟨some "k", "auto", "ask", false, false, true, "/w", 300000⟩
    ⟨none, none⟩ ⟨"GET", "/health", some "Bearer k", RequestBody.empty⟩ 0
    (Except.ok ⟨0, "", ""⟩) (Except.ok ⟨0, "", ""⟩) "k" rfl (by decide)⟩

/-- C10: every response the handler produces carries status 200, 401, 404
or 500 — never 400; a chat-completions request with an empty raw body is
handled exactly like one whose body is the empty JSON object, and with the
gate passed it still issues one normal agent invocation; a body on which
JSON parsing throws is answered by the outermost handler with a 500
envelope coded internal error. -/
theorem response_status_set :
    (∀ (cfg : BridgeConfig) (st : ServerState) (req : HttpRequest) (now : Int)
        (lr cr : Except String RunResult),
      (handleRequest cfg st req now lr cr).response.status = 200 ∨
      (handleRequest cfg st req now lr cr).response.status = 401 ∨
      (handleRequest cfg st req now lr cr).response.status = 404 ∨
      (handleRequest cfg st req now lr cr).response.status = 500) ∧
    (∀ (cfg : BridgeConfig) (st : ServerState) (auth_ : Option String) (now : Int)
        (lr cr : Except String RunResult),
      handleRequest cfg st ⟨"POST", "/v1/chat/completions", auth_, RequestBody.empty⟩ now lr cr =
      handleRequest cfg st
        ⟨"POST", "/v1/chat/completions", auth_, RequestBody.json ⟨none, [], false⟩⟩ now lr cr) ∧
    (∀ (cfg : BridgeConfig) (st : ServerState) (req : HttpRequest) (now : Int)
        (lr cr : Except String RunResult) (msg : String),
      (keyGateActive cfg = true → extractBearerToken req.authorization = cfg.requiredKey) →
      req.method = "POST" → req.pathname = "/v1/chat/completions" →
      req.body = RequestBody.malformed msg →
      (handleRequest cfg st req now lr cr).response =
        ⟨500, RespBody.errorEnvelope msg "internal_error"⟩) ∧
    (∀ (cfg : BridgeConfig) (st : ServerState) (auth_ : Option String) (now : Int)
        (lr cr : Except String RunResult),
      (keyGateActive cfg = true → extractBearerToken auth_ = cfg.requiredKey) →
      (handleRequest cfg st ⟨"POST", "/v1/chat/completions", auth_, RequestBody.empty⟩
          now lr cr).calls =
        [AgentCall.chat
          (resolveChatModel cfg.strictModel cfg.defaultModel st.lastRequestedModel none).model
          (chatCmdArgs cfg
            (resolveChatModel cfg.strictModel cfg.defaultModel st.lastRequestedModel none).model
            (buildPromptFromMessages []))]) := by
  refine ⟨?_, ?_, ?_, ?_⟩
  · intro cfg st req now lr cr
    unfold handleRequest
    split_ifs with hgate
    · right; left; rfl
    · obtain ⟨m, p, a, body⟩ := req
      unfold handleAfterAuth
      split_ifs with h1 h2 h3
      · left; rfl
      · rcases handleModelsGet_status st now lr with h | h
        · left; exact h
        · right; right; right; exact h
      · rcases body with _ | r | msg
        · rcases handleChatBody_status cfg st cr ⟨none, [], false⟩ with h | h
          · left; exact h
          · right; right; right; exact h
        · rcases handleChatBody_status cfg st cr r with h | h
          · left; exact h
          · right; right; right; exact h
        · right; right; right; rfl
      · right; right; left; rfl
  · intro cfg st auth_ now lr cr
    unfold handleRequest
    split_ifs with h
    · rfl
    · unfold handleAfterAuth
      simp
  · intro cfg st req now lr cr msg hauth hm hp hb
    unfold handleRequest
    rw [if_neg]
    · unfold handleAfterAuth
      rw [hm, hp, hb]
      simp
    · rintro ⟨hg, hne⟩
      exact hne (hauth hg)
  · intro cfg st auth_ now lr cr hauth
    unfold handleRequest
    rw [if_neg]
    · unfold handleAfterAuth
      simp only []
      rw [if_neg (by simp), if_neg (by simp), if_pos (by simp)]
      exact (handleChatBody_parts cfg st cr ⟨none, [], false⟩).1
    · rintro ⟨hg, hne⟩
      exact hne (hauth hg)

/-- Closed instance of the status theorem: an unknown route is a 404, an
empty chat body behaves like the empty JSON object, and a malformed body
is a 500 internal error. -/
theorem response_status_set_check :
    ((handleRequest ⟨none, "auto", "ask", false, false, true, "/w", 300000⟩ ⟨none, none⟩
        ⟨"PUT", "/nope", none, RequestBody.empty⟩ 0
        (Except.ok ⟨0, "", ""⟩) (Except.ok ⟨0, "", ""⟩)).response.status = 200 ∨
      (handleRequest ⟨none, "auto", "ask", false, false, true, "/w", 300000⟩ ⟨none, none⟩
        ⟨"PUT", "/nope", none, RequestBody.empty⟩ 0
        (Except.ok ⟨0, "", ""⟩) (Except.ok ⟨0, "", ""⟩)).response.status = 401 ∨
      (handleRequest ⟨none, "auto", "ask", false, false, true, "/w", 300000⟩ ⟨none, none⟩
        ⟨"PUT", "/nope", none, RequestBody.empty⟩ 0
        (Except.ok ⟨0, "", ""⟩) (Except.ok ⟨0, "", ""⟩)).response.status = 404 ∨
      (handleRequest ⟨none, "auto", "ask", false, false, true, "/w", 300000⟩ ⟨none, none⟩
        ⟨"PUT", "/nope", none, RequestBody.empty⟩ 0
        (Except.ok ⟨0, "", ""⟩) (Except.ok ⟨0, "", ""⟩)).response.status = 500) ∧
    (handleRequest ⟨none, "auto", "ask", false, false, true, "/w", 300000⟩ ⟨none, none⟩
        ⟨"POST", "/v1/chat/completions", none, RequestBody.malformed "Unexpected token"⟩ 0
        (Except.ok ⟨0, "", ""⟩) (Except.ok ⟨0, "", ""⟩)).response =
      ⟨500, RespBody.errorEnvelope "Unexpected token" "internal_error"⟩ :=
  ⟨response_status_set.1 ⟨none, "auto", "ask", false, false, true, "/w", 300000⟩ ⟨none, none⟩
    ⟨"PUT", "/nope", none, RequestBody.empty⟩ 0
    (Except.ok ⟨0, "", ""⟩) (Except.ok ⟨0, "", ""⟩),
   response_status_set.2.2.1 ⟨none, "auto", "ask", false, false, true, "/w", 300000⟩ ⟨none, none⟩
    ⟨"POST", "/v1/chat/completions", none, RequestBody.malformed "Unexpected token"⟩ 0
    (Except.ok ⟨0, "", ""⟩) (Except.ok ⟨0, "", ""⟩) "Unexpected token"
    (by intro h; cases h) rfl rfl rfl⟩

/-- Each handled request either leaves the pinning state unchanged or is a
chat-completions request whose parsed body carries an explicit non-auto
model, to which the state is then set. -/
theorem serverPin_cases (cfg : BridgeConfig) (st : ServerState) (req : HttpRequest)
    (now : Int) (lr cr : Except String RunResult) :
    (handleRequest cfg st req now lr cr).state.lastRequestedModel = st.lastRequestedModel ∨
    (req.method = "POST" ∧ req.pathname = "/v1/chat/completions" ∧
      ∃ r e, effectiveChatRequest req.body = some r ∧ explicitModelOf r.model = some e ∧
        (handleRequest cfg st req now lr cr).state.lastRequestedModel = some e) := by
  unfold handleRequest
  split_ifs with hgate
  · left; rfl
  · obtain ⟨m, p, a, body⟩ := req
    unfold handleAfterAuth
    split_ifs with h1 h2 h3
    · left; rfl
    · left; exact handleModelsGet_pin st now lr
    · rcases body with _ | r | msg
      · left
        rw [(handleChatBody_parts cfg st cr ⟨none, [], false⟩).2]
        rfl
      · rcases hexp : explicitModelOf r.model with _ | e
        · left
          rw [(handleChatBody_parts cfg st cr r).2]
          simp [resolve_pinned, hexp]
        · right
          refine ⟨h3.1, h3.2, r, e, rfl, hexp, ?_⟩
          rw [(handleChatBody_parts cfg st cr r).2]
          simp [resolve_pinned, hexp]
      · left; rfl
    · left; rfl

/-- C4: the pinning state is mutated only by chat-completion requests
whose body carries an explicit, non-empty, non-auto model after
normalization (and is then set to that normalized value); it persists
unchanged across any request sequence free of such explicit requests; and
under strict-pinning a chat request with no model arriving while model M
is pinned resolves to M for its agent invocation. -/
theorem pinning_state_policy :
    (∀ (cfg : BridgeConfig) (st : ServerState) (req : HttpRequest) (now : Int)
        (lr cr : Except String RunResult),
      (handleRequest cfg st req now lr cr).state.lastRequestedModel ≠ st.lastRequestedModel →
      req.method = "POST" ∧ req.pathname = "/v1/chat/completions" ∧
      ∃ r e, effectiveChatRequest req.body = some r ∧ explicitModelOf r.model = some e ∧
        (handleRequest cfg st req now lr cr).state.lastRequestedModel = some e) ∧
    (∀ (cfg : BridgeConfig) (st : ServerState) (rs : List IncomingRequest),
      (∀ r ∈ rs, ∀ b, effectiveChatRequest r.req.body = some b →
        explicitModelOf b.model = none) →
      (runServer cfg st rs).lastRequestedModel = st.lastRequestedModel) ∧
    (∀ (cfg : BridgeConfig) (st : ServerState) (req : HttpRequest) (now : Int)
        (lr cr : Except String RunResult) (M : String) (b : ChatRequest),
      cfg.strictModel = true → st.lastRequestedModel = some M →
      (keyGateActive cfg = true → extractBearerToken req.authorization = cfg.requiredKey) →
      req.method = "POST" → req.pathname = "/v1/chat/completions" →
      req.body = RequestBody.json b → b.model = none →
      (handleRequest cfg st req now lr cr).calls =
        [AgentCall.chat M (chatCmdArgs cfg M (buildPromptFromMessages b.messages))]) := by
  have hstep : ∀ (cfg : BridgeConfig) (st : ServerState) (r : IncomingRequest),
      (∀ b, effectiveChatRequest r.req.body = some b → explicitModelOf b.model = none) →
      (serverStep cfg st r).lastRequestedModel = st.lastRequestedModel := by
    intro cfg st r h
    rcases serverPin_cases cfg st r.req r.now r.listRes r.chatRes with hsame | ⟨_, _, b, e, hb, hexp, _⟩
    · exact hsame
    · rw [h b hb] at hexp
      cases hexp
  refine ⟨?_, ?_, ?_⟩
  · intro cfg st req now lr cr hne
    rcases serverPin_cases cfg st req now lr cr with hsame | hchg
    · exact absurd hsame hne
    · exact hchg
  · intro cfg st rs h
    induction rs generalizing st with
    | nil => rfl
    | cons r rest ih =>
      have : runServer cfg st (r :: rest) = runServer cfg (serverStep cfg st r) rest := rfl
      rw [this, ih (serverStep cfg st r) (fun x hx => h x (List.mem_cons_of_mem _ hx)),
        hstep cfg st r (h r (List.mem_cons_self r rest))]
  · intro cfg st req now lr cr M b hstrict hpin hauth hm hp hb hbm
    rw [handleRequest_chat_json cfg st req now lr cr b hauth hm hp hb,
      (handleChatBody_parts cfg st cr b).1, hbm, hstrict, hpin]
    rfl

/-- Closed instance of the pinning theorem: with model "m" pinned and
strict-pinning on, a model-less chat request resolves to "m"; and a
sequence of requests without explicit models leaves the pin unchanged. -/
theorem pinning_state_policy_check :
    (handleRequest ⟨none, "auto", "ask", false, false, true, "/w", 300000⟩ ⟨none, some "m"⟩
      ⟨"POST", "/v1/chat/completions", none, RequestBody.json ⟨none, [], false⟩⟩ 0
      (Except.ok ⟨0, "", ""⟩) (Except.ok ⟨0, "", ""⟩)).calls =
      [AgentCall.chat "m"
        (chatCmdArgs ⟨none, "auto", "ask", false, false, true, "/w", 300000⟩ "m"
          (buildPromptFromMessages []))] ∧
    (runServer ⟨none, "auto", "ask", false, false, true, "/w", 300000⟩ ⟨none, some "m"⟩
      [⟨⟨"GET", "/health", none, RequestBody.empty⟩, 0,
        Except.ok ⟨0, "", ""⟩, Except.ok ⟨0, "", ""⟩⟩,
       ⟨⟨"POST", "/v1/chat/completions", none, RequestBody.json ⟨some " auto ", [], false⟩⟩, 1,
        Except.ok ⟨0, "", ""⟩, Except.ok ⟨0, "", ""⟩⟩]).lastRequestedModel = some "m" :=
  ⟨pinning_state_policy.2.2 ⟨none, "auto", "ask", false, false, true, "/w", 300000⟩
    ⟨none, some "m"⟩
    ⟨"POST", "/v1/chat/completions", none, RequestBody.json ⟨none, [], false⟩⟩ 0
    (Except.ok ⟨0, "", ""⟩) (Except.ok ⟨0, "", ""⟩) "m" ⟨none, [], false⟩
    rfl rfl (by intro h; cases h) rfl rfl rfl rfl,
   pinning_state_policy.2.1 ⟨none, "auto", "ask", false, false, true, "/w", 300000⟩
    ⟨none, some "m"⟩
    [⟨⟨"GET", "/health", none, RequestBody.empty⟩, 0,
      Except.ok ⟨0, "", ""⟩, Except.ok ⟨0, "", ""⟩⟩,
     ⟨⟨"POST", "/v1/chat/completions", none, RequestBody.json ⟨some " auto ", [], false⟩⟩, 1,
      Except.ok ⟨0, "", ""⟩, Except.ok ⟨0, "", ""⟩⟩]
    (by decide)⟩

/-- C8: a model-list request finding the cache populated within the
freshness window is served from the cache with no upstream invocation and
no state change; a request finding the cache absent or older than five
minutes issues exactly one upstream listing invocation, and on a clean
exit the parsed result replaces the cache stamped with the current time;
hence two requests inside one window perform exactly one upstream
invocation. -/
theorem model_cache_freshness :
    (∀ (st : ServerState) (now t : Int) (ms : List CursorCliModel)
        (lr : Except String RunResult),
      st.modelCache = some (t, ms) → 0 ≤ now - t → now - t ≤ freshnessWindowMs →
      handleModelsGet st now lr = ⟨st, modelListResponse ms, []⟩) ∧
    (∀ (st : ServerState) (now : Int) (lr : Except String RunResult),
      (st.modelCache = none ∨
        ∃ t ms, st.modelCache = some (t, ms) ∧ freshnessWindowMs < now - t) →
      (handleModelsGet st now lr).calls = [AgentCall.listModels]) ∧
    (∀ (st : ServerState) (now : Int) (r : RunResult),
      (st.modelCache = none ∨
        ∃ t ms, st.modelCache = some (t, ms) ∧ freshnessWindowMs < now - t) →
      r.code = 0 →
      (handleModelsGet st now (Except.ok r)).state.modelCache =
        some (now, parseCursorCliModels r.stdout)) ∧
    (∀ (st : ServerState) (now1 now2 : Int) (r : RunResult) (lr2 : Except String RunResult),
      st.modelCache = none → r.code = 0 →
      0 ≤ now2 - now1 → now2 - now1 ≤ freshnessWindowMs →
      (handleModelsGet st now1 (Except.ok r)).calls.length +
        (handleModelsGet (handleModelsGet st now1 (Except.ok r)).state now2 lr2).calls.length
        = 1) := by
  have hfetchCalls : ∀ (st : ServerState) (now : Int) (lr : Except String RunResult),
      (fetchModels st now lr).calls = [AgentCall.listModels] := by
    intro st now lr
    unfold fetchModels
    rcases lr with e | r
    · rfl
    · by_cases h : r.code ≠ 0 <;> simp [h]
  have hfetchCache : ∀ (st : ServerState) (now : Int) (r : RunResult), r.code = 0 →
      (fetchModels st now (Except.ok r)).state.modelCache =
        some (now, parseCursorCliModels r.stdout) := by
    intro st now r hr
    unfold fetchModels
    simp [hr]
  have hfresh : ∀ (st : ServerState) (now t : Int) (ms : List CursorCliModel)
      (lr : Except String RunResult),
      st.modelCache = some (t, ms) → 0 ≤ now - t → now - t ≤ freshnessWindowMs →
      handleModelsGet st now lr = ⟨st, modelListResponse ms, []⟩ := by
    intro st now t ms lr hc h0 hw
    obtain ⟨mc, lrm⟩ := st
    simp only at hc
    subst hc
    unfold handleModelsGet
    dsimp only
    rw [if_neg (by omega)]
  have hstale : ∀ (st : ServerState) (now : Int) (lr : Except String RunResult),
      (st.modelCache = none ∨
        ∃ t ms, st.modelCache = some (t, ms) ∧ freshnessWindowMs < now - t) →
      handleModelsGet st now lr = fetchModels st now lr := by
    intro st now lr hst
    obtain ⟨mc, lrm⟩ := st
    rcases hst with hc | ⟨t, ms, hc, hw⟩ <;> simp only at hc <;> subst hc
    · rfl
    · unfold handleModelsGet
      dsimp only
      rw [if_pos (by omega)]
  refine ⟨hfresh, ?_, ?_, ?_⟩
  · intro st now lr hst
    rw [hstale st now lr hst]
    exact hfetchCalls st now lr
  · intro st now r hst hr
    rw [hstale st now (Except.ok r) hst]
    exact hfetchCache st now r hr
  · intro st now1 now2 r lr2 hnone hr h0 hw
    have h1 : handleModelsGet st now1 (Except.ok r) = fetchModels st now1 (Except.ok r) :=
      hstale st now1 (Except.ok r) (Or.inl hnone)
    have h2 : (handleModelsGet st now1 (Except.ok r)).state.modelCache =
        some (now1, parseCursorCliModels r.stdout) := by
      rw [h1]; exact hfetchCache st now1 r hr
    have h3 := hfresh (handleModelsGet st now1 (Except.ok r)).state now2 now1
      (parseCursorCliModels r.stdout) lr2 h2 h0 hw
    rw [h3, h1, hfetchCalls st now1 (Except.ok r)]
    rfl

/-- Closed instance of the freshness theorem: with an empty cache a first
request fetches, and a second request two minutes later is served from the
cache, for one upstream invocation in total. -/
theorem model_cache_freshness_check :
    (handleModelsGet ⟨none, none⟩ 1000 (Except.ok ⟨0, "a - 1", ""⟩)).calls.length +
      (handleModelsGet (handleModelsGet ⟨none, none⟩ 1000 (Except.ok ⟨0, "a - 1", ""⟩)).state
        121000 (Except.ok ⟨0, "", ""⟩)).calls.length = 1 :=
  model_cache_freshness.2.2.2 ⟨none, none⟩ 1000 121000 ⟨0, "a - 1", ""⟩
    (Except.ok ⟨0, "", ""⟩) rfl rfl (by decide) (by decide)

/-- One map-set step inserts the key at the end when it is new and keeps
the key sequence unchanged when it is already present. -/
theorem mapSet_ids (acc : List CursorCliModel) (m : CursorCliModel) :
    modelIds (mapSet acc m) = keyInsert (modelIds acc) m.id := by
  unfold mapSet keyInsert modelIds
  by_cases h : acc.any (fun x => x.id = m.id)
  · rw [if_pos h, List.map_map]
    obtain ⟨x, hx, hxid⟩ := List.any_eq_true.mp h
    have hmem : m.id ∈ acc.map CursorCliModel.id := by
      rw [← of_decide_eq_true hxid]
      exact List.mem_map_of_mem CursorCliModel.id hx
    rw [if_pos hmem]
    refine List.map_congr_left fun a _ => ?_
    by_cases ha : a.id = m.id <;> simp [ha]
  · have hmem : m.id ∉ acc.map CursorCliModel.id := by
      intro hmem
      obtain ⟨x, hx, hxid⟩ := List.mem_map.mp hmem
      exact h (List.any_eq_true.mpr ⟨x, hx, by simp [hxid]⟩)
    rw [if_neg h, List.map_append, if_neg hmem]
    simp

/-- Key sequence of the whole deduplication fold. -/
theorem dedup_ids_aux (l acc : List CursorCliModel) :
    modelIds (l.foldl mapSet acc) = (modelIds l).foldl keyInsert (modelIds acc) := by
  induction l generalizing acc with
  | nil => rfl
  | cons m rest ih =>
    rw [List.foldl_cons, ih, mapSet_ids]
    rfl

/-- Key insertion preserves distinctness. -/
theorem keyInsert_nodup (acc : List String) (i : String) (h : acc.Nodup) :
    (keyInsert acc i).Nodup := by
  unfold keyInsert
  split_ifs with hi
  · exact h
  · simp [List.nodup_append, h, hi]

/-- Folding key insertion over any list preserves distinctness. -/
theorem foldl_keyInsert_nodup (ids : List String) (acc : List String) (h : acc.Nodup) :
    (ids.foldl keyInsert acc).Nodup := by
  induction ids generalizing acc with
  | nil => exact h
  | cons i rest ih =>
    rw [List.foldl_cons]
    exact ih (keyInsert acc i) (keyInsert_nodup acc i h)

/-- Lookup in the value-replacement pass of a map-set step. -/
theorem find?_replace (m : CursorCliModel) (i : String) (acc : List CursorCliModel) :
    (acc.map (fun x => if x.id = m.id then m else x)).find? (fun x => x.id == i) =
      if m.id = i then
        (if acc.any (fun x => x.id = m.id) then some m else none)
      else acc.find? (fun x => x.id == i) := by
  induction acc with
  | nil => by_cases h : m.id = i <;> simp [h]
  | cons a as ih =>
    rw [List.map_cons]
    by_cases ha : a.id = m.id
    · rw [if_pos ha]
      by_cases hmi : m.id = i
      · rw [List.find?_cons_of_pos _ (by simp [hmi]), if_pos hmi,
          if_pos (by simp [List.any_cons, ha])]
      · rw [List.find?_cons_of_neg _ (by simp [hmi]), ih, if_neg hmi, if_neg hmi,
          List.find?_cons_of_neg _ (by simp [ha, hmi])]
    · rw [if_neg ha]
      by_cases hai : a.id = i
      · have hmi : ¬m.id = i := fun h => ha (hai.trans h.symm)
        rw [List.find?_cons_of_pos _ (by simp [hai]), if_neg hmi,
          List.find?_cons_of_pos _ (by simp [hai])]
      · rw [List.find?_cons_of_neg _ (by simp [hai]), ih]
        by_cases hmi : m.id = i
        · rw [if_pos hmi, if_pos hmi]
          simp [List.any_cons, ha]
        · rw [if_neg hmi, if_neg hmi, List.find?_cons_of_neg _ (by simp [hai])]

/-- Lookup after one map-set step: the inserted key now maps to the new
model, every other key is untouched. -/
theorem find?_mapSet (acc : List CursorCliModel) (m : CursorCliModel) (i : String) :
    (mapSet acc m).find? (fun x => x.id == i) =
      if m.id = i then some m else acc.find? (fun x => x.id == i) := by
  unfold mapSet
  by_cases hany : acc.any (fun x => x.id = m.id)
  · rw [if_pos hany, find?_replace, hany]
    by_cases hmi : m.id = i <;> simp [hmi]
  · rw [if_neg hany, List.find?_append]
    by_cases hmi : m.id = i
    · have hnone : acc.find? (fun x => x.id == i) = none := by
        rw [List.find?_eq_none]
        intro x hx
        simp only [beq_iff_eq]
        intro hxi
        exact hany (List.any_eq_true.mpr ⟨x, hx, by simp [hxi, hmi]⟩)
      simp [hnone, hmi]
    · cases h : acc.find? (fun x => x.id == i) <;> simp [h, hmi]

/-- Lookup after the whole deduplication fold: the last occurrence of a
key in the input wins, and keys absent from the input fall back to the
accumulator. -/
theorem find?_foldl_mapSet (l acc : List CursorCliModel) (i : String) :
    (l.foldl mapSet acc).find? (fun x => x.id == i) =
      (l.reverse.find? (fun x => x.id == i)).or (acc.find? (fun x => x.id == i)) := by
  induction l generalizing acc with
  | nil => simp
  | cons m rest ih =>
    rw [List.foldl_cons, ih, List.reverse_cons, List.find?_append, find?_mapSet]
    cases h : rest.reverse.find? (fun x => x.id == i) with
    | some y => simp
    | none =>
      by_cases hmi : m.id = i <;> simp [List.find?_cons, hmi]

/-- In a list with pairwise distinct identifiers, lookup by the identifier
of a member returns that member. -/
theorem find?_eq_of_mem_nodup (m : CursorCliModel) :
    ∀ l : List CursorCliModel, (modelIds l).Nodup → m ∈ l →
      l.find? (fun x => x.id == m.id) = some m := by
  intro l
  induction l with
  | nil => intro _ hm; cases hm
  | cons a as ih =>
    intro hn hm
    unfold modelIds at hn
    rw [List.map_cons, List.nodup_cons] at hn
    rcases List.mem_cons.mp hm with rfl | hm2
    · rw [List.find?_cons_of_pos _ (by simp)]
    · have hne : a.id ≠ m.id := fun h =>
        hn.1 (h ▸ List.mem_map_of_mem CursorCliModel.id hm2)
      rw [List.find?_cons_of_neg _ (by simp [hne])]
      exact ih hn.2 hm2

/-- The deduplication fold is the identity on a list whose identifiers are
already pairwise distinct. -/
theorem foldl_mapSet_of_nodup (l : List CursorCliModel) :
    ∀ acc, (modelIds (acc ++ l)).Nodup → l.foldl mapSet acc = acc ++ l := by
  induction l with
  | nil => intro acc _; simp
  | cons m rest ih =>
    intro acc h
    have hmnotin : m.id ∉ modelIds acc := by
      have hdisj := (List.nodup_append.mp (by simpa [modelIds] using h)).2.2
      intro hin
      exact hdisj hin (by simp [modelIds])
    have hany : ¬acc.any (fun x => x.id = m.id) := by
      intro hc
      obtain ⟨x, hx, hxid⟩ := List.any_eq_true.mp hc
      exact hmnotin (by
        rw [← of_decide_eq_true hxid]
        exact List.mem_map_of_mem CursorCliModel.id hx)
    have hset : mapSet acc m = acc ++ [m] := by
      unfold mapSet
      rw [if_neg hany]
    rw [List.foldl_cons, hset, ih (acc ++ [m]) (by simpa using h)]
    simp

/-- C5 counterexample: on the listing with a duplicated identifier "a",
the parser keeps the entry at the position of the identifier's first
sighting (before "b") while taking the description of its last occurrence —
so insertion order of first sight IS preserved across duplicates,
contradicting the claim that it is not. -/
theorem parse_models_first_sight_cex :
    parseCursorCliModels "a - 1\nb - 2\na - 3" = [⟨"a", "3"⟩, ⟨"b", "2"⟩] ∧
    (parseCursorCliModels "a - 1\nb - 2\na - 3").map CursorCliModel.id ≠ ["b", "a"] := by
  exact ⟨by decide, by decide⟩

/-- C5 amended: the parser recognizes lines through the listing pattern and
ignores all others without error (removing an unrecognized line leaves the
result unchanged); duplicate identifiers collapse via identifier-keyed
lookup to the description of the last occurrence, while keeping each
identifier at the position of its first sighting; the result has pairwise
distinct identifiers, and deduplication is idempotent on it. -/
theorem parse_models_dedup_last_wins :
    (∀ out, (modelIds (parseCursorCliModels out)).Nodup) ∧
    (∀ out m, m ∈ parseCursorCliModels out →
      ((splitLines out).filterMap parseModelLine).reverse.find?
        (fun x => x.id == m.id) = some m) ∧
    (∀ out, modelIds (parseCursorCliModels out) =
      firstSightKeys (modelIds ((splitLines out).filterMap parseModelLine))) ∧
    (∀ pre post l, parseModelLine l = none →
      parseLines (pre ++ l :: post) = parseLines (pre ++ post)) ∧
    (∀ out, dedupById (parseCursorCliModels out) = parseCursorCliModels out) := by
  have hids : ∀ rec : List CursorCliModel,
      modelIds (dedupById rec) = firstSightKeys (modelIds rec) := by
    intro rec
    unfold dedupById firstSightKeys
    simpa [modelIds] using dedup_ids_aux rec []
  have hnodup : ∀ rec : List CursorCliModel, (modelIds (dedupById rec)).Nodup := by
    intro rec
    rw [hids]
    exact foldl_keyInsert_nodup _ [] List.nodup_nil
  refine ⟨fun out => hnodup _, ?_, fun out => hids _, ?_, ?_⟩
  · intro out m hm
    have h2 : (parseCursorCliModels out).find? (fun x => x.id == m.id) = some m :=
      find?_eq_of_mem_nodup m _ (hnodup _) hm
    have h1 := find?_foldl_mapSet ((splitLines out).filterMap parseModelLine) [] m.id
    rw [show parseCursorCliModels out =
        ((splitLines out).filterMap parseModelLine).foldl mapSet [] from rfl] at h2
    rw [h1] at h2
    simpa using h2
  · intro pre post l hl
    unfold parseLines
    rw [List.filterMap_append, List.filterMap_append, List.filterMap_cons, hl]
  · intro out
    have h := hnodup ((splitLines out).filterMap parseModelLine)
    unfold dedupById
    rw [foldl_mapSet_of_nodup _ [] (by simpa using h)]
    simp

/-- Closed instance of the amended parser theorem: the duplicate "a" keeps
the last description, and an unrecognized line is ignored. -/
theorem parse_models_dedup_last_wins_check :
    ((splitLines "a - 1\na - 2").filterMap parseModelLine).reverse.find?
      (fun x => x.id == (⟨"a", "2"⟩ : CursorCliModel).id) = some ⟨"a", "2"⟩ ∧
    parseLines (["a - 1"] ++ "junk" :: []) = parseLines (["a - 1"] ++ []) :=
  ⟨parse_models_dedup_last_wins.2.1 "a - 1\na - 2" ⟨"a", "2"⟩ (by decide),
   parse_models_dedup_last_wins.2.2.2.1 ["a - 1"] [] "junk" (by decide)⟩

end Bridge
